import Mathlib

set_option maxRecDepth 40000

/-!
Verification of `scripts/import_flow_xlsx.py`: a one-shot importer that reads
a multi-sheet workbook, normalizes each sheet's rows into canonical records
scoped to one user, and submits them to a REST store in chunks of 200 with a
merge-duplicates preference.  The definitions below are a shallow embedding of
the script: cell values become an inductive `Value`, pandas rows become
functions from column name to `Value`, the module-level per-sheet blocks
become list transformers, and the HTTP layer is modelled by the list of
submissions it would issue (with a boolean transport oracle where failure
matters).  Machine floats are modelled as exact rationals; Python string
operations are modelled for ASCII content.
-/

/-- A raw cell value as the script sees it after `pandas` parsing: Python
`None`, a float `NaN`, a number (modelled as an exact rational), a string, a
boolean, or a `pd.Timestamp` (carried here as the ISO string its
`to_pydatetime().isoformat()` would render). -/
inductive Value where
  | vNone : Value
  | nan : Value
  | num : ℚ → Value
  | str : String → Value
  | bool : Bool → Value
  | timestamp : String → Value
deriving DecidableEq

/-- Embedding of `clean` (import_flow_xlsx.py lines 56-63): `None` stays
`None`, a float `NaN` becomes `None`, a `pd.Timestamp` becomes its
`to_pydatetime().isoformat()` string, everything else passes through. -/
def clean : Value → Value
  | Value.vNone => Value.vNone
  | Value.nan => Value.vNone
  | Value.timestamp iso => Value.str iso
  | v => v

/-- Python truthiness of a cell value: `None` is falsy, `NaN` is truthy (it
is a nonzero float), a number is truthy iff nonzero, a string iff nonempty,
a boolean is itself, a `pd.Timestamp` is truthy. -/
def truthy : Value → Bool
  | Value.vNone => false
  | Value.nan => true
  | Value.num q => !(decide (q = 0))
  | Value.str s => !(s == "")
  | Value.bool b => b
  | Value.timestamp _ => true

/-- Python `a or b`: `a` when truthy, else `b`. -/
def pyOr (a b : Value) : Value := if truthy a then a else b

/-- Python `str(...)` on a cell value.  Numeric rendering is modelled up to
decimal formatting (the claims never inspect the rendered digits). -/
def pyStr : Value → String
  | Value.str s => s
  | Value.num q => if q.den = 1 then toString q.num else toString q
  | Value.bool b => if b then "True" else "False"
  | Value.vNone => "None"
  | Value.nan => "nan"
  | Value.timestamp iso => iso

/-- Using a string method (`.split`, `.replace`) on a value: succeeds only on
actual strings, any other type raises `AttributeError`. -/
def asStr : Value → Except String String
  | Value.str s => Except.ok s
  | _ => Except.error "AttributeError: value has no string methods"

/-- Python whitespace for `str.split()` and `float()` stripping, modelled for
the ASCII whitespace characters. -/
def pyIsSpace (c : Char) : Bool :=
  c = ' ' || c = '\t' || c = '\n' || c = '\r' || c = '\x0b' || c = '\x0c'

/-- Leading decimal digits of a character list, as digit values, with the
remainder. -/
def takeDigits : List Char → List Nat × List Char
  | [] => ([], [])
  | c :: t =>
    if c.isDigit then
      let p := takeDigits t
      ((c.toNat - 48) :: p.1, p.2)
    else ([], c :: t)

/-- A digit list read as a base-10 natural number. -/
def digitsToNat (ds : List Nat) : Nat := ds.foldl (fun a d => a * 10 + d) 0

/-- Model of CPython `float(string)` for finite decimal literals: optional
surrounding whitespace, optional sign, digits with optional fractional part
and optional decimal exponent.  (`inf`, `nan`, underscores and hex floats are
outside the modelled subset; the result is an exact rational.)  `none` means
`float()` raises `ValueError`. -/
def parsePyFloat (s : String) : Option ℚ :=
  let l0 := s.data.dropWhile pyIsSpace
  let l1 := (l0.reverse.dropWhile pyIsSpace).reverse
  let sl : ℚ × List Char :=
    match l1 with
    | '+' :: t => (1, t)
    | '-' :: t => (-1, t)
    | t => (1, t)
  let ip := takeDigits sl.2
  let fp : List Nat × List Char :=
    match ip.2 with
    | '.' :: t => takeDigits t
    | t => ([], t)
  if ip.1 = [] ∧ fp.1 = [] then none
  else
    let mant : ℚ := sl.1 * (digitsToNat (ip.1 ++ fp.1) : ℚ) / ((10 : ℚ) ^ fp.1.length)
    match fp.2 with
    | [] => some mant
    | e :: t =>
      if e = 'e' ∨ e = 'E' then
        let es : Bool × List Char :=
          match t with
          | '+' :: t2 => (true, t2)
          | '-' :: t2 => (false, t2)
          | t2 => (true, t2)
        let ed := takeDigits es.2
        if ed.1 = [] ∨ ed.2 ≠ [] then none
        else some (if es.1 then mant * (10 : ℚ) ^ digitsToNat ed.1
                   else mant / (10 : ℚ) ^ digitsToNat ed.1)
      else none

/-- Python `float(value)` on a raw cell value (line 113 applies it to the raw
`Amount` cell): numbers and booleans convert, strings are parsed, `NaN`
stays `NaN`, `None` and `pd.Timestamp` raise `TypeError`. -/
def pyFloatV : Value → Except String Value
  | Value.num q => Except.ok (Value.num q)
  | Value.nan => Except.ok Value.nan
  | Value.bool b => Except.ok (Value.num (if b then 1 else 0))
  | Value.str s =>
    match parsePyFloat s with
    | some q => Except.ok (Value.num q)
    | none => Except.error ("could not convert string to float: " ++ s)
  | Value.vNone => Except.error "float() argument must not be None"
  | Value.timestamp _ => Except.error "float() argument must not be a Timestamp"

/-- A parsed `datetime.datetime`: calendar fields plus an optional UTC offset
in minutes (`none` for a naive datetime). -/
structure PyDateTime where
  year : Nat
  month : Nat
  day : Nat
  hour : Nat
  minute : Nat
  second : Nat
  microsecond : Nat
  tzOffsetMinutes : Option Int
deriving DecidableEq

/-- Two decimal digits as a number (helper for the ISO parser). -/
def d2 (a b : Char) : Option Nat :=
  if a.isDigit ∧ b.isDigit then some ((a.toNat - 48) * 10 + (b.toNat - 48))
  else none

/-- Four decimal digits as a number (helper for the ISO parser). -/
def d4 (a b c d : Char) : Option Nat :=
  if a.isDigit ∧ b.isDigit ∧ c.isDigit ∧ d.isDigit then
    some ((a.toNat - 48) * 1000 + (b.toNat - 48) * 100 + (c.toNat - 48) * 10
      + (d.toNat - 48))
  else none

/-- Whether a year is a Gregorian leap year. -/
def isLeapYear (y : Nat) : Bool :=
  (y % 4 = 0 && y % 100 ≠ 0) || y % 400 = 0

/-- Days in a month of a year. -/
def daysInMonth (y m : Nat) : Nat :=
  if m = 2 then (if isLeapYear y then 29 else 28)
  else if m = 4 ∨ m = 6 ∨ m = 9 ∨ m = 11 then 30
  else 31

/-- A fraction of 3 or 6 digits as microseconds, as
`datetime.fromisoformat` accepts. -/
def parseFraction : List Char → Option Nat
  | [a, b, c] =>
    (d2 a b).bind fun hi =>
      if c.isDigit then some ((hi * 10 + (c.toNat - 48)) * 1000) else none
  | [a, b, c, d, e, f] =>
    (d2 a b).bind fun x =>
      (d2 c d).bind fun y =>
        (d2 e f).map fun z => x * 10000 + y * 100 + z
  | _ => none

/-- The clock part `HH[:MM[:SS[.fff or .ffffff]]]` of an ISO time string,
as (hour, minute, second, microsecond). -/
def parseClock : List Char → Option (Nat × Nat × Nat × Nat)
  | [h1, h2] => (d2 h1 h2).map fun h => (h, 0, 0, 0)
  | [h1, h2, ':', m1, m2] =>
    (d2 h1 h2).bind fun h => (d2 m1 m2).map fun m => (h, m, 0, 0)
  | [h1, h2, ':', m1, m2, ':', s1, s2] =>
    (d2 h1 h2).bind fun h =>
      (d2 m1 m2).bind fun m => (d2 s1 s2).map fun s => (h, m, s, 0)
  | h1 :: h2 :: ':' :: m1 :: m2 :: ':' :: s1 :: s2 :: '.' :: frac =>
    (d2 h1 h2).bind fun h =>
      (d2 m1 m2).bind fun m =>
        (d2 s1 s2).bind fun s =>
          (parseFraction frac).map fun us => (h, m, s, us)
  | _ => none

/-- Index of the first `'+'` or `'-'` in a time string, mirroring how
`_parse_isoformat_time` locates the offset sign (a `'-'` anywhere wins over
a `'+'`). -/
def findSign (l : List Char) : Option Nat :=
  match l.indexOf? '-' with
  | some i => some i
  | none => l.indexOf? '+'

/-- The time-of-day part of an ISO string, with an optional `±HH:MM` UTC
offset (offset-seconds forms are outside the modelled subset).  Validation
mirrors the `datetime`/`timezone` constructors: hour ≤ 23, minute ≤ 59,
second ≤ 59, offset hours ≤ 23 and offset minutes ≤ 59. -/
def parseTimePart (l : List Char) : Option (Nat × Nat × Nat × Nat × Option Int) :=
  let split : List Char × Option (Bool × List Char) :=
    match findSign l with
    | none => (l, none)
    | some i => (l.take i, some (l.getD i '+' = '-', l.drop (i + 1)))
  (parseClock split.1).bind fun hmsu =>
    if hmsu.1 ≤ 23 ∧ hmsu.2.1 ≤ 59 ∧ hmsu.2.2.1 ≤ 59 then
      match split.2 with
      | none => some (hmsu.1, hmsu.2.1, hmsu.2.2.1, hmsu.2.2.2, none)
      | some st =>
        match st.2 with
        | [o1, o2, ':', o3, o4] =>
          (d2 o1 o2).bind fun oh =>
            (d2 o3 o4).bind fun om =>
              if oh ≤ 23 ∧ om ≤ 59 then
                let mins : Int := (oh * 60 + om : Nat)
                some (hmsu.1, hmsu.2.1, hmsu.2.2.1, hmsu.2.2.2,
                  some (if st.1 then -mins else mins))
              else none
        | _ => none
    else none

/-- Model of CPython `datetime.fromisoformat` (the 3.10 grammar the script
relies on): `YYYY-MM-DD`, optionally followed by one separator character and
a time `HH[:MM[:SS[.fff or .ffffff]]]` with optional `±HH:MM` offset.  The
`'Z'` suffix is NOT accepted here, exactly as in CPython 3.10 — the script
rewrites it before parsing.  Returns `none` where CPython raises
`ValueError`. -/
def fromisoformat (s : String) : Option PyDateTime :=
  match s.data with
  | y1 :: y2 :: y3 :: y4 :: '-' :: m1 :: m2 :: '-' :: dd1 :: dd2 :: rest =>
    (d4 y1 y2 y3 y4).bind fun y =>
      (d2 m1 m2).bind fun mo =>
        (d2 dd1 dd2).bind fun d =>
          if 1 ≤ y ∧ 1 ≤ mo ∧ mo ≤ 12 ∧ 1 ≤ d ∧ d ≤ daysInMonth y mo then
            match rest with
            | [] => some ⟨y, mo, d, 0, 0, 0, 0, none⟩
            | _ :: timeChars =>
              (parseTimePart timeChars).map fun t =>
                ⟨y, mo, d, t.1, t.2.1, t.2.2.1, t.2.2.2.1, t.2.2.2.2⟩
          else none
  | _ => none

/-- Two-digit zero-padded rendering (`%02d` for values below 100). -/
def pad2 (n : Nat) : List Char :=
  [Char.ofNat (48 + n / 10 % 10), Char.ofNat (48 + n % 10)]

/-- Four-digit zero-padded rendering (`%04d` for values below 10000). -/
def pad4 (n : Nat) : List Char :=
  [Char.ofNat (48 + n / 1000 % 10), Char.ofNat (48 + n / 100 % 10),
   Char.ofNat (48 + n / 10 % 10), Char.ofNat (48 + n % 10)]

/-- Six-digit zero-padded rendering (`%06d` for values below 1000000). -/
def pad6 (n : Nat) : List Char :=
  [Char.ofNat (48 + n / 100000 % 10), Char.ofNat (48 + n / 10000 % 10),
   Char.ofNat (48 + n / 1000 % 10), Char.ofNat (48 + n / 100 % 10),
   Char.ofNat (48 + n / 10 % 10), Char.ofNat (48 + n % 10)]

/-- The first sixteen characters of a datetime's ISO rendering:
`YYYY-MM-DDTHH:MM`. -/
def minuteChars (dt : PyDateTime) : List Char :=
  pad4 dt.year ++ '-' :: (pad2 dt.month ++ '-' :: (pad2 dt.day ++
    'T' :: (pad2 dt.hour ++ ':' :: pad2 dt.minute)))

/-- Model of `datetime.isoformat()`: `YYYY-MM-DDTHH:MM:SS`, with
`.ffffff` only when the microsecond field is nonzero, and `±HH:MM` when the
datetime is offset-aware. -/
def isoformat (dt : PyDateTime) : String :=
  String.mk (minuteChars dt ++ ':' :: (pad2 dt.second ++
    (if dt.microsecond = 0 then [] else '.' :: pad6 dt.microsecond) ++
    (match dt.tzOffsetMinutes with
     | none => []
     | some off =>
       (if off < 0 then '-' else '+') ::
         (pad2 (off.natAbs / 60) ++ ':' :: pad2 (off.natAbs % 60)))))

/-- Python slicing `s[:n]` by code point. -/
def takeStr (s : String) (n : Nat) : String := String.mk (s.data.take n)

/-- Python `ts.replace('Z', '+00:00')`: every `'Z'` replaced by the explicit
zero offset. -/
def pyReplaceZ (s : String) : String :=
  String.mk (s.data.flatMap fun c => if c = 'Z' then "+00:00".data else [c])

/-- Embedding of `normalize_minute` (lines 66-68): rewrite `'Z'` to
`'+00:00'`, parse, zero the seconds and microseconds, render back and keep
the first 16 characters.  `none` where CPython raises `ValueError` on a
malformed timestamp. -/
def normalize_minute (ts : String) : Option String :=
  (fromisoformat (pyReplaceZ ts)).map fun dt =>
    takeStr (isoformat { dt with second := 0, microsecond := 0 }) 16

/-- UTF-8 bytes of one code point. -/
def utf8Char (c : Char) : List Nat :=
  let n := c.toNat
  if n < 128 then [n]
  else if n < 2048 then [192 + n / 64, 128 + n % 64]
  else if n < 65536 then [224 + n / 4096, 128 + n / 64 % 64, 128 + n % 64]
  else [240 + n / 262144, 128 + n / 4096 % 64, 128 + n / 64 % 64, 128 + n % 64]

/-- UTF-8 encoding of a string, as the byte list `str.encode('utf-8')`
produces. -/
def utf8Encode (s : String) : List Nat := s.data.flatMap utf8Char

/-- 2^32, the word modulus of SHA-256. -/
def M32 : Nat := 4294967296

/-- Addition modulo 2^32. -/
def add32 (a b : Nat) : Nat := (a + b) % M32

/-- Right rotation of a 32-bit word. -/
def rotr32 (n x : Nat) : Nat := ((x >>> n) ||| (x <<< (32 - n))) % M32

/-- Bitwise complement of a 32-bit word. -/
def not32 (x : Nat) : Nat := x ^^^ 4294967295

/-- SHA-256 choose function. -/
def shaCh (x y z : Nat) : Nat := (x &&& y) ^^^ (not32 x &&& z)

/-- SHA-256 majority function. -/
def shaMaj (x y z : Nat) : Nat := (x &&& y) ^^^ (x &&& z) ^^^ (y &&& z)

/-- SHA-256 big sigma 0. -/
def bsig0 (x : Nat) : Nat := rotr32 2 x ^^^ rotr32 13 x ^^^ rotr32 22 x

/-- SHA-256 big sigma 1. -/
def bsig1 (x : Nat) : Nat := rotr32 6 x ^^^ rotr32 11 x ^^^ rotr32 25 x

/-- SHA-256 small sigma 0. -/
def ssig0 (x : Nat) : Nat := rotr32 7 x ^^^ rotr32 18 x ^^^ (x >>> 3)

/-- SHA-256 small sigma 1. -/
def ssig1 (x : Nat) : Nat := rotr32 17 x ^^^ rotr32 19 x ^^^ (x >>> 10)

/-- The 64 SHA-256 round constants of FIPS 180-4 (the fractional parts of
the cube roots of the first 64 primes), written in decimal. -/
def shaK : List Nat :=
  [1116352408, 1899447441, 3049323471, 3921009573, 961987163,
   1508970993, 2453635748, 2870763221, 3624381080, 310598401,
   607225278, 1426881987, 1925078388, 2162078206, 2614888103,
   3248222580, 3835390401, 4022224774, 264347078, 604807628,
   770255983, 1249150122, 1555081692, 1996064986, 2554220882,
   2821834349, 2952996808, 3210313671, 3336571891, 3584528711,
   113926993, 338241895, 666307205, 773529912, 1294757372,
   1396182291, 1695183700, 1986661051, 2177026350, 2456956037,
   2730485921, 2820302411, 3259730800, 3345764771, 3516065817,
   3600352804, 4094571909, 275423344, 430227734, 506948616,
   659060556, 883997877, 958139571, 1322822218, 1537002063,
   1747873779, 1955562222, 2024104815, 2227730452, 2361852424,
   2428436474, 2756734187, 3204031479, 3329325298]

/-- The SHA-256 initial hash state of FIPS 180-4 (the fractional parts of
the square roots of the first 8 primes), written in decimal. -/
def shaH0 : List Nat :=
  [1779033703, 3144134277, 1013904242, 2773480762, 1359893119,
   2600822924, 528734635, 1541459225]

/-- Big-endian bytes of a number, fixed width. -/
def beBytes (w n : Nat) : List Nat :=
  (List.range w).map fun i => n >>> ((w - 1 - i) * 8) % 256

/-- SHA-256 message padding: a `0x80` byte, zeros to 56 mod 64, and the
bit length as 8 big-endian bytes. -/
def shaPad (msg : List Nat) : List Nat :=
  msg ++ 0x80 :: List.replicate ((120 - (msg.length + 1) % 64) % 64) 0
    ++ beBytes 8 (msg.length * 8)

/-- Four big-endian bytes at a time as 32-bit words. -/
def toWords : List Nat → List Nat
  | a :: b :: c :: d :: rest =>
    (a * 16777216 + b * 65536 + c * 256 + d) :: toWords rest
  | _ => []

/-- Fuel-bounded chunking of a list into runs of `k` (the fuel is always
instantiated with the list length, which suffices for any `k ≥ 1`); kept
structural so that proofs by `decide` can evaluate it. -/
def chunksOfAux (k : Nat) : Nat → List α → List (List α)
  | _, [] => []
  | 0, _ :: _ => []
  | fuel + 1, x :: xs => (x :: xs).take k :: chunksOfAux k fuel ((x :: xs).drop k)

/-- A list in runs of `k` elements, the last run possibly shorter. -/
def chunksOf (k : Nat) (l : List α) : List (List α) := chunksOfAux k l.length l

/-- Extend a 16-word schedule to 64 words (48 extension steps of fuel). -/
def extendSchedule : Nat → List Nat → List Nat
  | 0, ws => ws
  | n + 1, ws =>
    let i := ws.length
    let w := add32 (add32 (ssig1 (ws.getD (i - 2) 0)) (ws.getD (i - 7) 0))
      (add32 (ssig0 (ws.getD (i - 15) 0)) (ws.getD (i - 16) 0))
    extendSchedule n (ws ++ [w])

/-- One SHA-256 round: rotate the 8-word state by the round constant and
schedule word. -/
def shaRound (st : List Nat) (kw : Nat × Nat) : List Nat :=
  match st with
  | [a, b, c, d, e, f, g, h] =>
    let t1 := add32 h (add32 (bsig1 e) (add32 (shaCh e f g) (add32 kw.1 kw.2)))
    let t2 := add32 (bsig0 a) (shaMaj a b c)
    [add32 t1 t2, a, b, c, add32 d t1, e, f, g]
  | other => other

/-- Compress one 64-byte block into the running hash state. -/
def shaBlock (h : List Nat) (block : List Nat) : List Nat :=
  let ws := extendSchedule 48 (toWords block)
  let st := (shaK.zip ws).foldl shaRound h
  List.zipWith add32 h st

/-- One lowercase hexadecimal digit. -/
def hexDigit (n : Nat) : Char :=
  if n < 10 then Char.ofNat (48 + n) else Char.ofNat (87 + n)

/-- A 32-bit word as 8 lowercase hex characters. -/
def hexWord (w : Nat) : List Char :=
  (List.range 8).map fun i => hexDigit (w >>> (28 - 4 * i) &&& 15)

/-- SHA-256 of a byte list, rendered as the 64-character lowercase hex
digest `hashlib.sha256(bytes).hexdigest()` returns. -/
def sha256hex (msg : List Nat) : String :=
  let padded := shaPad msg
  String.mk (((chunksOf 64 padded).foldl shaBlock shaH0).flatMap hexWord)

/-- The text key component of `build_idem` before hashing: all whitespace
removed, lower-cased, truncated to 100 characters
(`''.join(sms.split()).lower()[:100]`, modelled for ASCII case folding). -/
def stripLower (s : String) : List Char :=
  (s.data.filter fun c => !pyIsSpace c).map Char.toLower

/-- The cleaned, truncated text used by `build_idem`. -/
def idemText (s : String) : String := String.mk ((stripLower s).take 100)

/-- Embedding of `build_idem` (lines 71-74): SHA-256 hex digest of the
cleaned text, a `'|'` separator, and the minute-normalized timestamp, UTF-8
encoded.  `none` where `normalize_minute` raises on a malformed
timestamp. -/
def build_idem (sms ts : String) : Option String :=
  (normalize_minute ts).map fun m =>
    sha256hex (utf8Encode (idemText sms ++ "|" ++ m))

/-- Days between a Gregorian calendar date and 1970-01-01 (civil-from-days
inverse), used only to state when two timestamps denote the same UTC
instant. -/
def daysFromCivil (y m d : Nat) : Int :=
  let yi : Int := (y : Int) - (if m ≤ 2 then 1 else 0)
  let era : Int := (if 0 ≤ yi then yi else yi - 399) / 400
  let yoe : Int := yi - era * 400
  let doy : Int := (153 * (((m : Int) + 9) % 12) + 2) / 5 + (d : Int) - 1
  let doe : Int := yoe * 365 + yoe / 4 - yoe / 100 + doy
  era * 146097 + doe - 719468

/-- The UTC minute a timestamp string denotes: minutes since the epoch of
its wall-clock reading, shifted by its UTC offset (after the script's
`'Z'` rewriting).  `none` for malformed or offset-naive timestamps. -/
def utcMinutes (ts : String) : Option Int :=
  (fromisoformat (pyReplaceZ ts)).bind fun dt =>
    match dt.tzOffsetMinutes with
    | none => none
    | some off =>
      some (daysFromCivil dt.year dt.month dt.day * 1440
        + ((dt.hour * 60 + dt.minute : Nat) : Int) - off)

/-- A 101-character text ending in `'x'` (for the C7 witness). -/
def truncA : String := String.mk (List.replicate 100 'a' ++ ['x'])

/-- A 101-character text ending in `'y'` (for the C7 witness). -/
def truncB : String := String.mk (List.replicate 100 'a' ++ ['y'])

/-- A canonical record as the script builds it: a Python dict modelled as an
association list preserving the literal's key order. -/
abbrev Record := List (String × Value)

/-- One chunk request as `post_rows` (lines 77-93) issues it: the target
table, the `on_conflict` query parameter when a uniqueness constraint was
supplied, whether the `Prefer: resolution=merge-duplicates` header is set,
and the chunk of records in the JSON body. -/
structure Submission (ρ : Type) where
  table : String
  onConflict : Option String
  preferMergeDuplicates : Bool
  body : List ρ
deriving DecidableEq

/-- The request `post_rows` builds for one chunk: the loop body always adds
the merge-duplicates preference header (line 88), with or without a
constraint. -/
def mkSub (table : String) (oc : Option String) (c : List ρ) : Submission ρ :=
  ⟨table, oc, true, c⟩

/-- Embedding of `post_rows` under a fully successful transport: the chunk
requests it issues, in order.  Empty input returns before any request is
built (`if not rows: return`). -/
def postRows (table : String) (rows : List ρ) (oc : Option String) :
    List (Submission ρ) :=
  if rows.isEmpty then []
  else (chunksOf 200 rows).map (mkSub table oc)

/-- The chunk loop of `post_rows` under a fallible transport `net`: issues
requests in order, stopping at (and including) the first failed one; the
boolean is `false` exactly when a chunk failed and `RuntimeError` was
raised. -/
def submitChunks (net : Submission ρ → Bool) (table : String)
    (oc : Option String) : List (List ρ) → List (Submission ρ) × Bool
  | [] => ([], true)
  | c :: cs =>
    let sub := mkSub table oc c
    if net sub then
      let r := submitChunks net table oc cs
      (sub :: r.1, r.2)
    else ([sub], false)

/-- Embedding of `post_rows` under a fallible transport: the trace of chunk
requests actually attempted, and whether the call returned normally. -/
def postRowsT (net : Submission ρ → Bool) (table : String) (rows : List ρ)
    (oc : Option String) : List (Submission ρ) × Bool :=
  if rows.isEmpty then ([], true)
  else submitChunks net table oc (chunksOf 200 rows)

/-- A parsed sheet row: column name to raw cell value (`r.get(col)`); a
column absent from the sheet reads as `Value.vNone`, an empty cell of a
present column reads as `Value.nan`. -/
abbrev Row := String → Value

/-- Python `str.lower()`, modelled for ASCII case folding. -/
def strLower (s : String) : String := String.mk (s.data.map Char.toLower)

/-- One `RawLedger` row (body of the loop at lines 104-123): `none` for a
row skipped by the missing-timestamp rule, `error` where the Python body
raises (string methods on a non-string, `ValueError` from `fromisoformat`,
or `float()` on a non-convertible `Amount`). -/
def ledgerRecord (uid : String) (r : Row) : Except String (Option Record) :=
  let ts := clean (r "Timestamp")
  if truthy ts then
    match asStr (pyOr (clean (r "RawText")) (Value.str "")) with
    | Except.error e => Except.error e
    | Except.ok raws =>
      match asStr ts with
      | Except.error e => Except.error e
      | Except.ok tss =>
        match build_idem raws tss with
        | none => Except.error ("Invalid isoformat string: " ++ tss)
        | some idem =>
          match (if clean (r "Amount") = Value.vNone then Except.ok Value.vNone
                 else pyFloatV (r "Amount")) with
          | Except.error e => Except.error e
          | Except.ok amount =>
            Except.ok (some
              [("user_id", Value.str uid),
               ("txn_timestamp", ts),
               ("amount", amount),
               ("currency", pyOr (clean (r "Currency")) (Value.str "QAR")),
               ("counterparty", clean (r "Counterparty")),
               ("card", clean (r "Card")),
               ("direction", clean (r "Direction")),
               ("txn_type", clean (r "TxnType")),
               ("raw_text", Value.str raws),
               ("net", clean (r "NET")),
               ("idempotency_key", Value.str idem),
               ("source", Value.str "import")])
  else Except.ok none

/-- The `RawLedger` transformer (lines 101-123): rows in order, skipping
rows with a falsy cleaned timestamp, aborting on the first row whose body
raises. -/
def ledgerRows (uid : String) : List Row → Except String (List Record)
  | [] => Except.ok []
  | r :: rs =>
    match ledgerRecord uid r with
    | Except.error e => Except.error e
    | Except.ok none => ledgerRows uid rs
    | Except.ok (some rec) =>
      match ledgerRows uid rs with
      | Except.error e => Except.error e
      | Except.ok recs => Except.ok (rec :: recs)

/-- The `MerchantMap` transformer (lines 127-140): skip rows with a falsy
cleaned pattern; the stored pattern is `str(pattern).lower()`. -/
def merchantRows (uid : String) (rows : List Row) : List Record :=
  rows.filterMap fun r =>
    let pattern := clean (r "Pattern")
    if truthy pattern then
      some [("user_id", Value.str uid),
            ("pattern", Value.str (strLower (pyStr pattern))),
            ("display_name", clean (r "Display Name")),
            ("consolidated_name", clean (r "Consolidated Name")),
            ("category", clean (r "Category"))]
    else none

/-- The `FXRates` transformer (lines 144-156): skip rows with a falsy
cleaned currency. -/
def fxRows (uid : String) (rows : List Row) : List Record :=
  rows.filterMap fun r =>
    let currency := clean (r "Currency")
    if truthy currency then
      some [("user_id", Value.str uid),
            ("currency", currency),
            ("rate_to_qar", clean (r "RateToQAR")),
            ("formula", clean (r "Formula"))]
    else none

/-- The `UserContext` transformer (lines 160-175): skip rows with a falsy
cleaned type. -/
def contextRows (uid : String) (rows : List Row) : List Record :=
  rows.filterMap fun r =>
    let typeVal := clean (r "Type")
    if truthy typeVal then
      some [("user_id", Value.str uid),
            ("type", typeVal),
            ("key", clean (r "Key")),
            ("value", clean (r "Value")),
            ("details", clean (r "Details")),
            ("date_added", clean (r "DateAdded")),
            ("source", clean (r "Source"))]
    else none

/-- The `Recipients` transformer (lines 179-195): skip a row only when all
four cleaned key fields are falsy (`not (phone or bank or short or long)`);
a kept row's phone is `str(phone)` when the cleaned phone is not `None`. -/
def recipientsRows (uid : String) (rows : List Row) : List Record :=
  rows.filterMap fun r =>
    let phone := clean (r "Phone")
    let bank := clean (r "BankAccount")
    let short := clean (r "ShortName")
    let long := clean (r "LongName")
    if (truthy phone || truthy bank || truthy short || truthy long) = true then
      some [("user_id", Value.str uid),
            ("phone", if phone = Value.vNone then Value.vNone
                      else Value.str (pyStr phone)),
            ("bank_account", bank),
            ("short_name", short),
            ("long_name", long)]
    else none

/-- The `Insights` transformer (lines 199-211): skip rows with a falsy
cleaned date or falsy cleaned insight body. -/
def insightsRows (uid : String) (rows : List Row) : List Record :=
  rows.filterMap fun r =>
    let date := clean (r "Date")
    let insights := clean (r "Insights")
    if (!truthy date || !truthy insights) = true then none
    else
      some [("user_id", Value.str uid),
            ("date", date),
            ("insights", insights)]

/-- A row whose only set column is a numeric-zero phone (for the C8
counterexample). -/
def rowPhoneZero : Row := fun c => if c = "Phone" then Value.num 0 else Value.vNone

/-- A row whose only set column is a nonempty string phone (for the C8
witness). -/
def rowPhoneKept : Row := fun c => if c = "Phone" then Value.str "5550" else Value.vNone

/-- A concrete bad ledger row for the C10 witness: a valid timestamp and
the amount string `abc`. -/
def rowBadAmount : Row := fun c =>
  if c = "Timestamp" then Value.str "2024-03-01T10:07:42+00:00"
  else if c = "RawText" then Value.str "hi"
  else if c = "Amount" then Value.str "abc"
  else Value.nan

/-- The source workbook: each of the six sheets present or absent (absence
of a sheet skips its block entirely). -/
structure Workbook where
  rawLedger : Option (List Row)
  merchantMap : Option (List Row)
  fxRates : Option (List Row)
  userContext : Option (List Row)
  recipients : Option (List Row)
  insights : Option (List Row)

/-- One module-level sheet block (`if name in xl.sheet_names`): transform
the rows and post them; returns the trace of attempted chunk requests and
the error that propagates out of the block, if any. -/
def importSheet (net : Submission Record → Bool) (table : String)
    (oc : Option String) (sheet : Option (List Row))
    (transform : List Row → Except String (List Record)) :
    List (Submission Record) × Option String :=
  match sheet with
  | none => ([], none)
  | some rs =>
    match transform rs with
    | Except.error e => ([], some e)
    | Except.ok recs =>
      let p := postRowsT net table recs oc
      (p.1, if p.2 then none else some ("Insert failed for " ++ table))

/-- Uncaught-exception sequencing of the module-level blocks: once a block
raised, no later block runs; otherwise the traces accumulate. -/
def thenSheet (acc next : List (Submission Record) × Option String) :
    List (Submission Record) × Option String :=
  match acc.2 with
  | some _ => acc
  | none => (acc.1 ++ next.1, next.2)

/-- The module-level flow (lines 96-212) after identity resolution: the six
sheet blocks in source order, an exception in one block aborting every
later block.  Returns the trace of attempted chunk requests and the first
error. -/
def runImport (net : Submission Record → Bool) (uid : String) (wb : Workbook) :
    List (Submission Record) × Option String :=
  thenSheet (thenSheet (thenSheet (thenSheet (thenSheet
    (importSheet net "raw_ledger" (some "user_id,idempotency_key")
      wb.rawLedger (ledgerRows uid))
    (importSheet net "merchant_map" (some "user_id,pattern")
      wb.merchantMap (fun rs => Except.ok (merchantRows uid rs))))
    (importSheet net "fx_rates" (some "user_id,currency")
      wb.fxRates (fun rs => Except.ok (fxRows uid rs))))
    (importSheet net "user_context" none
      wb.userContext (fun rs => Except.ok (contextRows uid rs))))
    (importSheet net "recipients" none
      wb.recipients (fun rs => Except.ok (recipientsRows uid rs))))
    (importSheet net "insights" none
      wb.insights (fun rs => Except.ok (insightsRows uid rs)))

/-- A one-row `MerchantMap` sheet (for the C1 scenario). -/
def rowPat : Row := fun c => if c = "Pattern" then Value.str "Shop" else Value.vNone

/-- A one-row `Insights` sheet with a kept row (for the C1 scenario). -/
def rowIns : Row := fun c =>
  if c = "Date" then Value.str "2024-01-01"
  else if c = "Insights" then Value.str "note" else Value.vNone

/-- A workbook with a merchant sheet and a later insights sheet (for the
C1 scenario). -/
def wbMerchIns : Workbook := ⟨none, some [rowPat], none, none, none, some [rowIns]⟩

/-- A transport that fails exactly the `merchant_map` requests. -/
def netFailMerchant : Submission Record → Bool := fun s => !(s.table == "merchant_map")

/-- Taking 16 characters of a string that starts with a 16-character run
keeps exactly that run. -/
theorem take16_mk (l1 l2 : List Char) (h : l1.length = 16) :
    takeStr (String.mk (l1 ++ l2)) 16 = String.mk l1 := by
  show String.mk ((l1 ++ l2).take 16) = String.mk l1
  rw [← h, List.take_left]

/-- `normalize_minute` renders exactly the year-month-day-hour-minute fields
of the parsed datetime: seconds, microseconds and the UTC offset never reach
the 16-character cut. -/
theorem normalize_minute_eq (ts : String) (dt : PyDateTime)
    (h : fromisoformat (pyReplaceZ ts) = some dt) :
    normalize_minute ts = some (String.mk (minuteChars dt)) := by
  have hlen : (minuteChars { dt with second := 0, microsecond := 0 }).length = 16 := by
    rfl
  unfold normalize_minute
  rw [h]
  show some (takeStr (isoformat { dt with second := 0, microsecond := 0 }) 16)
    = some (String.mk (minuteChars dt))
  unfold isoformat
  rw [take16_mk _ _ hlen]
  rfl

/-- Claim C3 (amended): the idempotency key builder gives equal digests for
two well-formed timestamps exactly as far as their parsed wall-clock minute
fields agree — the UTC offset is never converted out, so any two timestamps
with the same year, month, day, hour and minute reading (whatever their
offsets) collide, while the offset itself is ignored entirely. -/
theorem idemKeySameWallMinute (s t1 t2 : String) (dt1 dt2 : PyDateTime)
    (h1 : fromisoformat (pyReplaceZ t1) = some dt1)
    (h2 : fromisoformat (pyReplaceZ t2) = some dt2)
    (hy : dt1.year = dt2.year) (hmo : dt1.month = dt2.month)
    (hd : dt1.day = dt2.day) (hh : dt1.hour = dt2.hour)
    (hmi : dt1.minute = dt2.minute) :
    build_idem s t1 = build_idem s t2 := by
  unfold build_idem
  rw [normalize_minute_eq t1 dt1 h1, normalize_minute_eq t2 dt2 h2]
  have : minuteChars dt1 = minuteChars dt2 := by
    unfold minuteChars
    rw [hy, hmo, hd, hh, hmi]
  rw [this]

/-- Witness for C3's amended theorem: two instants 54 seconds apart in the
same wall-clock minute, one with an explicit `+02:00` offset and one with a
`'Z'` marker, hash identically. -/
theorem idemKeySameWallMinute_witness :
    build_idem "pay" "2025-01-02T03:04:05+02:00"
      = build_idem "pay" "2025-01-02T03:04:59Z" :=
  idemKeySameWallMinute "pay" "2025-01-02T03:04:05+02:00" "2025-01-02T03:04:59Z"
    ⟨2025, 1, 2, 3, 4, 5, 0, some 120⟩ ⟨2025, 1, 2, 3, 4, 59, 0, some 0⟩
    (by decide) (by decide) rfl rfl rfl rfl rfl

/-- Counterexample to claim C3 as stated: two well-formed timestamps in the
very same UTC minute, carrying different UTC offsets, produce different
idempotency keys — the builder never converts the wall-clock reading to
UTC. -/
theorem idemKeyUtcOffset_cex :
    utcMinutes "2024-03-01T10:07:42+00:00" = utcMinutes "2024-03-01T11:07:42+01:00"
    ∧ (utcMinutes "2024-03-01T10:07:42+00:00").isSome = true
    ∧ build_idem "x" "2024-03-01T10:07:42+00:00"
        ≠ build_idem "x" "2024-03-01T11:07:42+01:00" :=
  ⟨by decide, by decide, by decide⟩

/-- Claim C5: the spec's concrete scenario — `"  Hello WORLD  "` at
`10:07:42Z` and `"helloworld"` at `10:07:59+00:00` hash identically, both
timestamps normalizing to the minute `2024-03-01T10:07` and both texts
cleaning to `helloworld`. -/
theorem idemKeyScenario :
    build_idem "  Hello WORLD  " "2024-03-01T10:07:42Z"
      = build_idem "helloworld" "2024-03-01T10:07:59+00:00"
    ∧ normalize_minute "2024-03-01T10:07:42Z" = some "2024-03-01T10:07"
    ∧ normalize_minute "2024-03-01T10:07:59+00:00" = some "2024-03-01T10:07"
    ∧ idemText "  Hello WORLD  " = "helloworld"
    ∧ idemText "helloworld" = "helloworld" :=
  ⟨by decide, by decide, by decide, by decide, by decide⟩

/-- Claim C7: texts that agree on their first 100 characters after
whitespace removal and lower-casing produce the same idempotency key for
any fixed timestamp — the truncation is an intentional collision policy. -/
theorem idemKeyTruncation (s1 s2 t : String) (hne : s1 ≠ s2)
    (h : (stripLower s1).take 100 = (stripLower s2).take 100) :
    build_idem s1 t = build_idem s2 t := by
  unfold build_idem idemText
  rw [h]

/-- Witness for C7: two distinct 101-character texts differing only in their
final character get the same key. -/
theorem idemKeyTruncation_witness :
    truncA ≠ truncB
    ∧ build_idem truncA "2024-01-01T00:00:00"
        = build_idem truncB "2024-01-01T00:00:00" :=
  ⟨by decide, idemKeyTruncation truncA truncB "2024-01-01T00:00:00"
    (by decide) (by decide)⟩

/-- Chunking the empty list gives no chunks, whatever the fuel. -/
theorem chunksOfAux_nil (k f : Nat) : chunksOfAux k f ([] : List α) = [] := by
  cases f <;> rfl

/-- Concatenating the 200-chunks of a list restores the list (fuel form). -/
theorem chunksOfAux_join :
    ∀ (f : Nat) (l : List α), l.length ≤ f →
      (chunksOfAux 200 f l).flatten = l := by
  intro f
  induction f with
  | zero =>
    intro l hl
    have : l = [] := List.eq_nil_of_length_eq_zero (Nat.le_zero.mp hl)
    subst this
    rfl
  | succ f ih =>
    intro l hl
    match l with
    | [] => rfl
    | x :: xs =>
      have hxl : xs.length + 1 ≤ f + 1 := by simpa using hl
      show ((x :: xs).take 200 ++ (chunksOfAux 200 f ((x :: xs).drop 200)).flatten)
        = x :: xs
      rw [ih ((x :: xs).drop 200)
        (by simp only [List.length_drop, List.length_cons]; omega)]
      exact List.take_append_drop 200 (x :: xs)

/-- The number of 200-chunks is the length rounded up by 200 (fuel form). -/
theorem chunksOfAux_length :
    ∀ (f : Nat) (l : List α), l.length ≤ f →
      (chunksOfAux 200 f l).length = (l.length + 199) / 200 := by
  intro f
  induction f with
  | zero =>
    intro l hl
    have : l = [] := List.eq_nil_of_length_eq_zero (Nat.le_zero.mp hl)
    subst this
    simp [chunksOfAux_nil]
  | succ f ih =>
    intro l hl
    match l with
    | [] => simp [chunksOfAux_nil]
    | x :: xs =>
      have hxl : xs.length + 1 ≤ f + 1 := by simpa using hl
      show (chunksOfAux 200 f ((x :: xs).drop 200)).length + 1
        = ((x :: xs).length + 199) / 200
      rw [ih ((x :: xs).drop 200)
        (by simp only [List.length_drop, List.length_cons]; omega)]
      simp only [List.length_drop, List.length_cons]
      omega

/-- Every 200-chunk is nonempty and holds at most 200 elements (fuel
form). -/
theorem chunksOfAux_mem :
    ∀ (f : Nat) (l : List α) (c : List α), l.length ≤ f →
      c ∈ chunksOfAux 200 f l → c ≠ [] ∧ c.length ≤ 200 := by
  intro f
  induction f with
  | zero =>
    intro l c hl hc
    have : l = [] := List.eq_nil_of_length_eq_zero (Nat.le_zero.mp hl)
    subst this
    simp [chunksOfAux] at hc
  | succ f ih =>
    intro l c hl hc
    match l with
    | [] => simp [chunksOfAux] at hc
    | x :: xs =>
      have hxl : xs.length + 1 ≤ f + 1 := by simpa using hl
      rcases List.mem_cons.mp hc with h | h
      · subst h
        constructor
        · rw [show (200 : Nat) = 199 + 1 from rfl, List.take_succ_cons]
          exact List.cons_ne_nil x (xs.take 199)
        · exact List.length_take_le 200 (x :: xs)
      · exact ih ((x :: xs).drop 200) c
          (by simp only [List.length_drop, List.length_cons]; omega) h

/-- Every 200-chunk except possibly the last holds exactly 200 elements
(fuel form). -/
theorem chunksOfAux_dropLast :
    ∀ (f : Nat) (l : List α) (c : List α), l.length ≤ f →
      c ∈ (chunksOfAux 200 f l).dropLast → c.length = 200 := by
  intro f
  induction f with
  | zero =>
    intro l c hl hc
    have : l = [] := List.eq_nil_of_length_eq_zero (Nat.le_zero.mp hl)
    subst this
    simp [chunksOfAux] at hc
  | succ f ih =>
    intro l c hl hc
    match l with
    | [] => simp [chunksOfAux] at hc
    | x :: xs =>
      have hxl : xs.length + 1 ≤ f + 1 := by simpa using hl
      have hc' : c ∈ ((x :: xs).take 200 :: chunksOfAux 200 f ((x :: xs).drop 200)).dropLast := hc
      match hrest : chunksOfAux 200 f ((x :: xs).drop 200) with
      | [] =>
        rw [hrest] at hc'
        simp [List.dropLast] at hc'
      | r :: rs =>
        rw [hrest] at hc'
        rcases List.mem_cons.mp hc' with h | h
        · subst h
          have hdrop : (x :: xs).drop 200 ≠ [] := by
            intro hnil
            rw [hnil, chunksOfAux_nil] at hrest
            exact List.noConfusion hrest
          have h200 : 200 < xs.length + 1 := by
            have := List.length_pos.mpr hdrop
            simp only [List.length_drop, List.length_cons] at this
            omega
          simp only [List.length_take, List.length_cons]
          omega
        · exact ih ((x :: xs).drop 200) c
            (by simp only [List.length_drop, List.length_cons]; omega)
            (by rw [hrest]; exact h)

/-- Claim C6: `post_rows` issues no request on an empty record list;
otherwise it partitions the records, in original order, into
`ceil(n/200)` chunks — every chunk nonempty and of at most 200 records, and
every chunk but the last of exactly 200 — submitted as one request per
chunk, sequentially; in particular 401 records yield exactly three
requests of sizes 200, 200 and 1. -/
theorem postRows_chunking :
    ∀ (ρ : Type) (t : String) (oc : Option String) (rows : List ρ),
      postRows t ([] : List ρ) oc = []
      ∧ (postRows t rows oc).map (fun s => s.body) = chunksOf 200 rows
      ∧ (chunksOf 200 rows).flatten = rows
      ∧ (chunksOf 200 rows).length = (rows.length + 199) / 200
      ∧ (∀ c, c ∈ chunksOf 200 rows → c ≠ [] ∧ c.length ≤ 200)
      ∧ (∀ c, c ∈ (chunksOf 200 rows).dropLast → c.length = 200)
      ∧ (postRows "raw_ledger" (List.range 401)
          (some "user_id,idempotency_key")).map (fun s => s.body.length)
          = [200, 200, 1] := by
  intro ρ t oc rows
  refine ⟨rfl, ?_, chunksOfAux_join rows.length rows le_rfl,
    chunksOfAux_length rows.length rows le_rfl,
    fun c hc => chunksOfAux_mem rows.length rows c le_rfl hc,
    fun c hc => chunksOfAux_dropLast rows.length rows c le_rfl hc,
    by decide⟩
  unfold postRows
  split
  · rename_i h
    rw [List.isEmpty_iff.mp h]
    rfl
  · rw [List.map_map]
    have hid : ((fun s : Submission ρ => s.body) ∘ mkSub t oc) = id :=
      funext fun c => rfl
    rw [hid, List.map_id]

/-- Witness for C6: the first chunk of 401 records is a member of the
chunk partition, nonempty and within the 200 bound. -/
theorem postRows_chunking_witness :
    List.range 200 ≠ [] ∧ (List.range 200).length ≤ 200 :=
  (postRows_chunking Nat "t" none (List.range 401)).2.2.2.2.1
    (List.range 200) (by decide)

/-- Claim C2 (amended): every chunk request carries the merge-duplicates
preference header, whether or not a uniqueness constraint was supplied; the
constraint descriptor itself is attached to the request exactly when
supplied. -/
theorem mergePreference :
    ∀ (ρ : Type) (t : String) (oc : Option String) (rows : List ρ)
      (s : Submission ρ), s ∈ postRows t rows oc →
      s.preferMergeDuplicates = true ∧ s.onConflict = oc ∧ s.table = t := by
  intro ρ t oc rows s hs
  unfold postRows at hs
  split at hs
  · simp at hs
  · obtain ⟨c, _, rfl⟩ := List.mem_map.mp hs
    exact ⟨rfl, rfl, rfl⟩

/-- Witness for C2's amended theorem: the one request for a single
`user_context` record, submitted with no constraint, still has the
merge-duplicates preference set. -/
theorem mergePreference_witness :
    (mkSub "user_context" none [([("user_id", Value.str "u")] : Record)]).preferMergeDuplicates = true
    ∧ (mkSub "user_context" none [([("user_id", Value.str "u")] : Record)]).onConflict = none
    ∧ (mkSub "user_context" none [([("user_id", Value.str "u")] : Record)]).table = "user_context" :=
  mergePreference Record "user_context" none [[("user_id", Value.str "u")]]
    (mkSub "user_context" none [[("user_id", Value.str "u")]]) (by decide)

/-- Counterexample to claim C2 as stated: a submission for the append-only
`user_context` collection, with no uniqueness constraint supplied, still
requests duplicate-merge resolution. -/
theorem mergePreference_cex :
    (postRows "user_context" [([("user_id", Value.str "u")] : Record)] none).map
      (fun s => s.preferMergeDuplicates) = [true] := by
  decide

/-- Claim C4 (amended): `clean` is total by construction and maps a value to
the no-value marker exactly when the value is `None` or a float `NaN`; a
`pd.Timestamp` becomes its ISO string; every other value (including the
empty string) passes through unchanged. -/
theorem clean_spec : ∀ v : Value,
    (clean v = Value.vNone ↔ (v = Value.vNone ∨ v = Value.nan))
    ∧ (∀ iso, v = Value.timestamp iso → clean v = Value.str iso)
    ∧ (v ≠ Value.vNone → v ≠ Value.nan → (∀ iso, v ≠ Value.timestamp iso) →
        clean v = v) := by
  intro v
  cases v <;> simp [clean]

/-- Witness for C4's amended theorem: the empty string is not `None`, not
`NaN`, not a timestamp, and passes through `clean` unchanged. -/
theorem clean_spec_witness : clean (Value.str "") = Value.str "" :=
  (clean_spec (Value.str "")).2.2 (by decide) (by decide)
    (fun iso h => Value.noConfusion h)

/-- Counterexample to claim C4 as stated: the empty string is an empty cell
value, yet `clean` does not map it to the no-value marker. -/
theorem clean_emptyString_cex :
    clean (Value.str "") ≠ Value.vNone ∧ Value.str "" ≠ Value.vNone := by
  decide

/-- Counterexample to claim C8 as stated: a row whose phone is set (to the
number 0, hence neither `None` nor an empty string) and whose other three
key fields are empty is nevertheless dropped — the keep rule is Python
truthiness, not emptiness, so a zero phone does not save the row. -/
theorem recipientsKeepRule_cex :
    recipientsRows "u" [rowPhoneZero] = []
    ∧ rowPhoneZero "Phone" ≠ Value.vNone
    ∧ rowPhoneZero "Phone" ≠ Value.str ""
    ∧ rowPhoneZero "BankAccount" = Value.vNone
    ∧ rowPhoneZero "ShortName" = Value.vNone
    ∧ rowPhoneZero "LongName" = Value.vNone := by
  refine ⟨by decide, by decide, by decide, by decide, by decide, by decide⟩

/-- Claim C8 (amended): the `Recipients` transformer drops a row exactly
when all four cleaned key fields are falsy in Python's sense (`None`, empty
string, zero, or false); a kept row's phone field is the string coercion of
the cleaned phone when that is not `None`, and null otherwise. -/
theorem recipientsKeepRule : ∀ (uid : String) (r : Row),
    (recipientsRows uid [r] = [] ↔
      (truthy (clean (r "Phone")) = false
        ∧ truthy (clean (r "BankAccount")) = false
        ∧ truthy (clean (r "ShortName")) = false
        ∧ truthy (clean (r "LongName")) = false))
    ∧ (∀ rec, rec ∈ recipientsRows uid [r] →
        rec.lookup "phone" = some (if clean (r "Phone") = Value.vNone
          then Value.vNone else Value.str (pyStr (clean (r "Phone"))))) := by
  intro uid r
  constructor
  · cases hcond : (truthy (clean (r "Phone")) || truthy (clean (r "BankAccount"))
        || truthy (clean (r "ShortName")) || truthy (clean (r "LongName"))) with
    | false =>
      obtain ⟨⟨⟨h1, h2⟩, h3⟩, h4⟩ := by
        simpa only [Bool.or_eq_false_iff] using hcond
      have hdrop : recipientsRows uid [r] = [] := by
        simp only [recipientsRows, List.filterMap_cons, List.filterMap_nil, hcond]
        simp
      rw [hdrop]
      exact ⟨fun _ => ⟨h1, h2, h3, h4⟩, fun _ => rfl⟩
    | true =>
      have hkept : recipientsRows uid [r] ≠ [] := by
        simp only [recipientsRows, List.filterMap_cons, List.filterMap_nil, hcond]
        simp
      constructor
      · intro h
        exact absurd h hkept
      · rintro ⟨h1, h2, h3, h4⟩
        rw [h1, h2, h3, h4] at hcond
        exact Bool.noConfusion hcond
  · intro rec hrec
    obtain ⟨r', hr', hf⟩ := List.mem_filterMap.mp hrec
    rw [List.mem_singleton.mp hr'] at hf
    cases hcond : (truthy (clean (r "Phone")) || truthy (clean (r "BankAccount"))
        || truthy (clean (r "ShortName")) || truthy (clean (r "LongName"))) with
    | false =>
      simp only [hcond] at hf
      simp at hf
    | true =>
      simp only [hcond] at hf
      simp at hf
      subst hf
      simp [List.lookup]

/-- Witness for C8's amended theorem: a row with only a (truthy) phone set
is kept and its emitted phone field is the string coercion. -/
theorem recipientsKeepRule_witness :
    ([("user_id", Value.str "u"), ("phone", Value.str "5550"),
      ("bank_account", Value.vNone), ("short_name", Value.vNone),
      ("long_name", Value.vNone)] : Record) ∈ recipientsRows "u" [rowPhoneKept]
    ∧ ([("user_id", Value.str "u"), ("phone", Value.str "5550"),
        ("bank_account", Value.vNone), ("short_name", Value.vNone),
        ("long_name", Value.vNone)] : Record).lookup "phone"
      = some (if clean (rowPhoneKept "Phone") = Value.vNone then Value.vNone
              else Value.str (pyStr (clean (rowPhoneKept "Phone")))) :=
  ⟨by decide, (recipientsKeepRule "u" rowPhoneKept).2
    [("user_id", Value.str "u"), ("phone", Value.str "5550"),
     ("bank_account", Value.vNone), ("short_name", Value.vNone),
     ("long_name", Value.vNone)] (by decide)⟩

/-- A `RawLedger`-shaped record built by `ledgerRecord` always carries the
run's user identifier. -/
theorem ledgerRecord_userId (uid : String) (r : Row) (rec : Record)
    (h : ledgerRecord uid r = Except.ok (some rec)) :
    rec.lookup "user_id" = some (Value.str uid) := by
  simp only [ledgerRecord] at h
  repeat' split at h
  all_goals
    first
    | exact Except.noConfusion h
    | (injection h with h1; exact Option.noConfusion h1)
    | (injection h with h1; injection h1 with h2; subst h2; simp [List.lookup])

/-- Every record the `RawLedger` transformer emits carries the run's user
identifier. -/
theorem ledgerRows_userId (uid : String) : ∀ (rows : List Row) (recs : List Record),
    ledgerRows uid rows = Except.ok recs →
    ∀ rec ∈ recs, rec.lookup "user_id" = some (Value.str uid) := by
  intro rows
  induction rows with
  | nil =>
    intro recs h rec hrec
    injection h with h1
    subst h1
    exact absurd hrec (List.not_mem_nil rec)
  | cons r rs ih =>
    intro recs h rec hrec
    unfold ledgerRows at h
    cases hlr : ledgerRecord uid r with
    | error e =>
      rw [hlr] at h
      exact Except.noConfusion h
    | ok o =>
      cases o with
      | none =>
        rw [hlr] at h
        exact ih recs h rec hrec
      | some rec0 =>
        rw [hlr] at h
        cases hrs : ledgerRows uid rs with
        | error e =>
          rw [hrs] at h
          exact Except.noConfusion h
        | ok recs' =>
          rw [hrs] at h
          injection h with h1
          subst h1
          rcases List.mem_cons.mp hrec with h2 | h2
          · subst h2
            exact ledgerRecord_userId uid r rec hlr
          · exact ih recs' hrs rec h2

/-- Claim C9: every record any of the six sheet transformers emits carries
the non-null owner identifier the identity resolver produced once for the
run. -/
theorem records_userId : ∀ (uid : String) (rows : List Row),
    (∀ recs, ledgerRows uid rows = Except.ok recs →
      ∀ rec ∈ recs, rec.lookup "user_id" = some (Value.str uid))
    ∧ (∀ rec ∈ merchantRows uid rows, rec.lookup "user_id" = some (Value.str uid))
    ∧ (∀ rec ∈ fxRows uid rows, rec.lookup "user_id" = some (Value.str uid))
    ∧ (∀ rec ∈ contextRows uid rows, rec.lookup "user_id" = some (Value.str uid))
    ∧ (∀ rec ∈ recipientsRows uid rows, rec.lookup "user_id" = some (Value.str uid))
    ∧ (∀ rec ∈ insightsRows uid rows, rec.lookup "user_id" = some (Value.str uid))
    ∧ Value.str uid ≠ Value.vNone := by
  intro uid rows
  refine ⟨fun recs h => ledgerRows_userId uid rows recs h, ?_, ?_, ?_, ?_, ?_,
    fun h => Value.noConfusion h⟩
  all_goals
    intro rec hrec
  all_goals
    obtain ⟨r, _, hf⟩ := List.mem_filterMap.mp hrec
  all_goals
    try dsimp only at hf
  all_goals
    split at hf
  all_goals
    first
    | exact Option.noConfusion hf
    | (injection hf with h1; subst h1; simp [List.lookup])

/-- Witness for C9: the merchant record of a one-row sheet is emitted and
carries the identifier. -/
theorem records_userId_witness :
    ([("user_id", Value.str "u"), ("pattern", Value.str "shop"),
      ("display_name", Value.vNone), ("consolidated_name", Value.vNone),
      ("category", Value.vNone)] : Record)
      ∈ merchantRows "u" [fun c => if c = "Pattern" then Value.str "Shop" else Value.vNone]
    ∧ ([("user_id", Value.str "u"), ("pattern", Value.str "shop"),
        ("display_name", Value.vNone), ("consolidated_name", Value.vNone),
        ("category", Value.vNone)] : Record).lookup "user_id"
      = some (Value.str "u") :=
  ⟨by decide,
    (records_userId "u" [fun c => if c = "Pattern" then Value.str "Shop" else Value.vNone]).2.1
      [("user_id", Value.str "u"), ("pattern", Value.str "shop"),
       ("display_name", Value.vNone), ("consolidated_name", Value.vNone),
       ("category", Value.vNone)] (by decide)⟩

/-- Claim C10: a kept ledger row (present string timestamp that parses)
whose raw `Amount` cell is a string `float()` cannot convert makes the
whole `RawLedger` transformer raise, whatever the remaining rows — the row
is neither skipped nor emitted. -/
theorem ledgerAmountNonNumeric (uid t w a : String) (r : Row) (rest : List Row)
    (hts : r "Timestamp" = Value.str t) (htne : t ≠ "")
    (hraw : r "RawText" = Value.str w)
    (hnm : (normalize_minute t).isSome = true)
    (ham : r "Amount" = Value.str a)
    (hnum : parsePyFloat a = none) :
    ledgerRows uid (r :: rest)
      = Except.error ("could not convert string to float: " ++ a) := by
  obtain ⟨m, hm⟩ := Option.isSome_iff_exists.mp hnm
  have hbt : (t == "") = false := by simp [htne]
  have hrec : ledgerRecord uid r
      = Except.error ("could not convert string to float: " ++ a) := by
    cases hw : (w == "") <;>
      simp [ledgerRecord, clean, truthy, pyOr, asStr, build_idem, pyFloatV,
        hts, hraw, ham, hm, hnum, hbt, hw]
  unfold ledgerRows
  rw [hrec]

/-- Witness for C10: the transformer fails on the concrete row with amount
`abc`. -/
theorem ledgerAmountNonNumeric_witness :
    ledgerRows "u" [rowBadAmount]
      = Except.error ("could not convert string to float: " ++ "abc") :=
  ledgerAmountNonNumeric "u" "2024-03-01T10:07:42+00:00" "hi" "abc"
    rowBadAmount [] (by decide) (by decide) (by decide) (by decide)
    (by decide) (by decide)

/-- A failed chunk ends the loop of `post_rows`: the trace is the chunks up
to and including the first failed one. -/
theorem submitChunks_fail {ρ : Type} (net : Submission ρ → Bool) (t : String)
    (oc : Option String) : ∀ (cs : List (List ρ)),
    (submitChunks net t oc cs).2 = false →
    ∃ k, k < cs.length
      ∧ (submitChunks net t oc cs).1 = ((cs.take (k + 1)).map (mkSub t oc))
      ∧ net (mkSub t oc (cs.getD k [])) = false := by
  intro cs
  induction cs with
  | nil =>
    intro h
    exact absurd h (by simp [submitChunks])
  | cons c cs ih =>
    intro h
    by_cases hnet : net (mkSub t oc c) = true
    · have hred : submitChunks net t oc (c :: cs)
          = (mkSub t oc c :: (submitChunks net t oc cs).1,
             (submitChunks net t oc cs).2) := by
        simp [submitChunks, hnet]
      rw [hred] at h ⊢
      obtain ⟨k, hk, htr, hn⟩ := ih h
      refine ⟨k + 1, by simpa using Nat.succ_lt_succ hk, ?_, by simpa using hn⟩
      simp only [List.take_succ_cons, List.map_cons, List.getD_cons_succ]
      rw [htr]
    · have hnet' : net (mkSub t oc c) = false := by simpa using hnet
      have hred : submitChunks net t oc (c :: cs) = ([mkSub t oc c], false) := by
        simp [submitChunks, hnet']
      rw [hred]
      exact ⟨0, by simp, by simp, by simpa using hnet'⟩

/-- Claim C1 (amended): a failed chunk aborts the rest of its sheet — the
trace stops at the failing chunk — and, the exception being uncaught, also
aborts the whole run: sheets after the failing one are not attempted at
all, while sheets completed before it stand.  (Stated for a failure in the
`merchant_map` sheet with no ledger sheet present; the sequencing is
identical for every sheet.) -/
theorem postFailureAborts :
    (∀ (ρ : Type) (net : Submission ρ → Bool) (t : String) (oc : Option String)
        (rows : List ρ),
      (postRowsT net t rows oc).2 = false →
      ∃ k, k < (chunksOf 200 rows).length
        ∧ (postRowsT net t rows oc).1
            = ((chunksOf 200 rows).take (k + 1)).map (mkSub t oc)
        ∧ net (mkSub t oc ((chunksOf 200 rows).getD k [])) = false)
    ∧ (∀ (net : Submission Record → Bool) (uid : String) (wb : Workbook)
        (rs : List Row) (tr : List (Submission Record)),
      wb.rawLedger = none →
      wb.merchantMap = some rs →
      postRowsT net "merchant_map" (merchantRows uid rs) (some "user_id,pattern")
        = (tr, false) →
      runImport net uid wb = (tr, some "Insert failed for merchant_map")) := by
  constructor
  · intro ρ net t oc rows h
    unfold postRowsT at h ⊢
    by_cases he : rows.isEmpty
    · rw [if_pos he] at h
      exact absurd h (by simp)
    · rw [if_neg he] at h ⊢
      exact submitChunks_fail net t oc (chunksOf 200 rows) h
  · intro net uid wb rs tr h1 h2 h3
    unfold runImport
    rw [h1, h2]
    simp [importSheet, thenSheet, h3]

/-- Counterexample to claim C1 as stated: with the merchant sheet's one
chunk failing, the run errors and its trace holds no `insights` request,
although the later insights sheet has a row that would be emitted — the
later sheet's import is not attempted. -/
theorem postFailureAborts_cex :
    (runImport netFailMerchant "u" wbMerchIns).2 = some "Insert failed for merchant_map"
    ∧ (runImport netFailMerchant "u" wbMerchIns).1.map (fun s => s.table)
        = ["merchant_map"]
    ∧ insightsRows "u" [rowIns] ≠ [] :=
  ⟨by decide, by decide, by decide⟩

/-- Witness for C1's amended theorem: under a transport that fails every
request, the run stops with the merchant sheet's first chunk and the
insights sheet contributes nothing. -/
theorem postFailureAborts_witness :
    runImport (fun _ => false) "u" wbMerchIns
      = ([mkSub "merchant_map" (some "user_id,pattern")
          [[("user_id", Value.str "u"), ("pattern", Value.str "shop"),
            ("display_name", Value.vNone), ("consolidated_name", Value.vNone),
            ("category", Value.vNone)]]],
         some "Insert failed for merchant_map") :=
  postFailureAborts.2 (fun _ => false) "u" wbMerchIns [rowPat]
    [mkSub "merchant_map" (some "user_id,pattern")
      [[("user_id", Value.str "u"), ("pattern", Value.str "shop"),
        ("display_name", Value.vNone), ("consolidated_name", Value.vNone),
        ("category", Value.vNone)]]] rfl rfl (by decide)
